import Mathlib

/-
Shallow embedding of a polymorphic callable container (a type-erasing
function wrapper with small-object optimization).

The source consists of two headers:
  function.h       : the user-facing container, function R(Args...)
  function_impl.h  : storage, type_descriptor tables, object_traits

Modelling decisions:
  - The call signature is fixed to Nat -> Nat; the C++ template signature
    parameters R, Args... play no role in any claim beyond fixing one
    signature instantiation.
  - A concrete callable C++ type T is modelled by CppType: a numeric
    identity plus its size, alignment and whether its move constructor is
    nothrow. Two C++ types are equal exactly when their CppType values are.
  - A callable value is a Value: its CppType, its call behaviour, and a
    flag saying whether copy-constructing from it throws (a marker type
    with a throwing copy constructor).
  - The heap is explicit: a bump allocator with an association list of
    live cells. Reading a dead or absent address yields a junk value, the
    counterpart of undefined behaviour in the source.
  - The per type static descriptor tables are identified by DescId; the
    four operations copy, move, invoke and destroy dispatch on DescId and
    are translated lambda by lambda from the source. The desc field of a
    storage is an Option DescId; none models an indeterminate or null
    table pointer, which never arises in reachable containers.
-/

namespace FnModel

/-- Size, alignment and move-constructor nothrow-ness of a concrete C++ type. -/
structure TypeInfo where
  size : Nat
  align : Nat
  nothrowMove : Bool
deriving DecidableEq, Repr

/-- A concrete C++ callable type: a numeric identity plus its TypeInfo.
Distinct C++ types get distinct tyId values. -/
structure CppType where
  tyId : Nat
  info : TypeInfo
deriving DecidableEq, Repr

/-- A callable value: its concrete type, its (deterministic) call behaviour on
the fixed Nat -> Nat signature, and whether copy-constructing from it throws. -/
structure Value where
  ty : CppType
  fn : Nat → Nat
  copyThrows : Bool

/-- Junk value produced by reinterpreting indeterminate bytes or by reading a
dangling heap address: the counterpart of undefined behaviour in the source. -/
def junkValue : Value :=
  { ty := { tyId := 0, info := { size := 1, align := 1, nothrowMove := true } },
    fn := fun _ => 0, copyThrows := false }

/-- INPLACE_BUFFER_SIZE = sizeof(void*), on an LP64 target. -/
def INPLACE_BUFFER_SIZE : Nat := 8

/-- INPLACE_BUFFER_ALIGNMENT = alignof(void*), on an LP64 target. -/
def INPLACE_BUFFER_ALIGNMENT : Nat := 8

/-- fits_small_storage from function_impl.h: sizeof(T) <= INPLACE_BUFFER_SIZE,
alignof(T) <= INPLACE_BUFFER_ALIGNMENT, and is_nothrow_move_constructible T. -/
def fits_small_storage (t : TypeInfo) : Bool :=
  decide (t.size ≤ INPLACE_BUFFER_SIZE) &&
  decide (t.align ≤ INPLACE_BUFFER_ALIGNMENT) &&
  t.nothrowMove

/-- Identity of a static type_descriptor instance: either the shared empty
state table of the signature, or the object_traits T table of a concrete
type T (whose strategy, small or owned, is determined by its TypeInfo). -/
inductive DescId where
  | empty : DescId
  | obj : CppType → DescId
deriving DecidableEq, Repr

/-- Contents of the inplace_buffer, interpreted: indeterminate bytes, the
bytes of a small object constructed in place, or a stored heap address. -/
inductive Buf where
  | uninit : Buf
  | inl : Value → Buf
  | addr : Nat → Buf

/-- The explicit heap: a bump allocator plus the association list of live
cells. Newly allocated cells are consed at the front. -/
structure Heap where
  next : Nat
  cells : List (Nat × Value)

def Heap.emptyHeap : Heap := { next := 0, cells := [] }

def Heap.lookup (h : Heap) (a : Nat) : Option Value :=
  (h.cells.find? (fun c => c.fst == a)).map (fun c => c.snd)

/-- Dereference a heap address; a dead address yields the junk value. -/
def Heap.read (h : Heap) (a : Nat) : Value :=
  (h.lookup a).getD junkValue

/-- new T(v): returns the fresh address and the extended heap. -/
def Heap.alloc (h : Heap) (v : Value) : Nat × Heap :=
  (h.next, { next := h.next + 1, cells := (h.next, v) :: h.cells })

/-- delete p: remove the cell at address a. -/
def Heap.free (h : Heap) (a : Nat) : Heap :=
  { next := h.next, cells := h.cells.filter (fun c => c.fst != a) }

/-- Heap well-formedness: every live cell sits below the bump pointer, so a
fresh allocation never shadows a live cell. -/
def Heap.Wf (h : Heap) : Prop :=
  ∀ c ∈ h.cells, c.fst < h.next

/-- storage R Args... from function_impl.h: the inplace buffer plus the
(nullable) pointer to the current type_descriptor. The default constructor
leaves both indeterminate, modelled as uninit and none. -/
structure Storage where
  buf : Buf
  desc : Option DescId

/-- get_static T: reinterpret the buffer bytes as a T object. -/
def Storage.get_static (s : Storage) : Value :=
  match s.buf with
  | Buf.inl v => v
  | _ => junkValue

/-- get_dynamic T: reinterpret the buffer bytes as a stored address. -/
def Storage.get_dynamic (s : Storage) : Nat :=
  match s.buf with
  | Buf.addr a => a
  | _ => 0

/-- Dereference the desc pointer of a storage; dereferencing an indeterminate
or null pointer is undefined behaviour, modelled as a junk dispatch on the
empty table. Reachable containers never hit the junk case. -/
def derefDesc : Option DescId → DescId
  | some d => d
  | none => DescId.empty

/-- Exceptions that cross the container boundary: the bad_function_call thrown
by the empty table invoke, and a client exception thrown by a copy
constructor of a held value (or by allocation). -/
inductive CppExn where
  | bad_function_call : CppExn
  | copy_failure : CppExn
deriving DecidableEq, Repr

/-- what() of an exception. The source fixes the bad_function_call message;
the copy_failure message is client defined and immaterial. -/
def exnWhat : CppExn → String
  | CppExn.bad_function_call => "bad function call"
  | CppExn.copy_failure => "client exception"

/-- The copy operation of the table identified by d, translated lambda by
lambda: the empty table only sets the destination desc; the small table
placement-copy-constructs into the destination buffer then copies the source
desc; the owned table heap-allocates a copy of the pointee then copies the
source desc. On a throw the destination is untouched (the caller keeps dst). -/
def descCopy (d : DescId) (dst src : Storage) (h : Heap) :
    Except CppExn (Storage × Heap) :=
  match d with
  | DescId.empty => Except.ok ({ dst with desc := some DescId.empty }, h)
  | DescId.obj ty =>
    if fits_small_storage ty.info then
      let v := src.get_static
      if v.copyThrows then Except.error CppExn.copy_failure
      else Except.ok ({ buf := Buf.inl v, desc := src.desc }, h)
    else
      let v := h.read src.get_dynamic
      if v.copyThrows then Except.error CppExn.copy_failure
      else
        let p := h.alloc v
        Except.ok ({ buf := Buf.addr p.fst, desc := src.desc }, p.snd)

/-- The move operation of the table identified by d: returns (new dst, new
src). The empty table only sets the destination desc; the small table
move-constructs into the destination buffer (the source keeps its table and
its moved-from object, to be destroyed later by whoever owns the source); the
owned table transfers the stored address and resets the source desc to the
empty table. Never throws. -/
def descMove (d : DescId) (dst src : Storage) : Storage × Storage :=
  match d with
  | DescId.empty => ({ dst with desc := some DescId.empty }, src)
  | DescId.obj ty =>
    if fits_small_storage ty.info then
      ({ buf := Buf.inl src.get_static, desc := src.desc }, src)
    else
      ({ buf := Buf.addr src.get_dynamic, desc := src.desc },
       { src with desc := some DescId.empty })

/-- The invoke operation of the table identified by d: the empty table throws
bad_function_call; the small table calls the in-buffer object; the owned
table dereferences the stored address and calls the pointee. -/
def descInvoke (d : DescId) (src : Storage) (h : Heap) (arg : Nat) :
    Except CppExn Nat :=
  match d with
  | DescId.empty => Except.error CppExn.bad_function_call
  | DescId.obj ty =>
    if fits_small_storage ty.info then Except.ok (src.get_static.fn arg)
    else Except.ok ((h.read src.get_dynamic).fn arg)

/-- The destroy operation of the table identified by d: the empty table does
nothing; the small table runs the in-buffer destructor (no heap effect); the
owned table deletes the pointee. Never throws. -/
def descDestroy (d : DescId) (src : Storage) (h : Heap) : Heap :=
  match d with
  | DescId.empty => h
  | DescId.obj ty =>
    if fits_small_storage ty.info then h
    else h.free src.get_dynamic

/-- The container: function R(Args...), wrapping exactly one storage. -/
structure Fn where
  stg : Storage

/-- function(): stg.desc = empty_type_descriptor(); buffer indeterminate. -/
def Fn.mk_default : Fn :=
  { stg := { buf := Buf.uninit, desc := some DescId.empty } }

/-- function(T val): selects the strategy from fits_small_storage, sets the
object_traits T descriptor and initializes the storage (placement move for
small T, heap allocation for non-small T). -/
def Fn.mk_val (v : Value) (h : Heap) : Fn × Heap :=
  if fits_small_storage v.ty.info then
    ({ stg := { buf := Buf.inl v, desc := some (DescId.obj v.ty) } }, h)
  else
    let p := h.alloc v
    ({ stg := { buf := Buf.addr p.fst, desc := some (DescId.obj v.ty) } }, p.snd)

/-- function(function const other): other.stg.desc->copy(&stg, &other.stg),
with this container freshly default-initialized (indeterminate fields). -/
def Fn.mk_copy (other : Fn) (h : Heap) : Except CppExn (Fn × Heap) :=
  match descCopy (derefDesc other.stg.desc)
      { buf := Buf.uninit, desc := none } other.stg h with
  | Except.ok r => Except.ok ({ stg := r.fst }, r.snd)
  | Except.error e => Except.error e

/-- function(function other) for rvalues:
other.stg.desc->move(&stg, &other.stg). Returns (new this, new other). -/
def Fn.mk_move (other : Fn) : Fn × Fn :=
  let p := descMove (derefDesc other.stg.desc)
      { buf := Buf.uninit, desc := none } other.stg
  ({ stg := p.fst }, { stg := p.snd })

/-- operator bool(): stg.desc != empty_type_descriptor(). -/
def Fn.toBool (f : Fn) : Bool :=
  decide (f.stg.desc ≠ some DescId.empty)

/-- operator()(args...): stg.desc->invoke(&stg, args...). -/
def Fn.call (f : Fn) (h : Heap) (arg : Nat) : Except CppExn Nat :=
  descInvoke (derefDesc f.stg.desc) f.stg h arg

/-- target T(): compare stg.desc against object_traits T
get_type_descriptor(); on a match return the pointee of as_target (the
in-buffer object for small T, the heap pointee for non-small T), else null
(modelled as none versus some pointee). -/
def Fn.target (f : Fn) (ty : CppType) (h : Heap) : Option Value :=
  if f.stg.desc = some (DescId.obj ty) then
    some (if fits_small_storage ty.info then f.stg.get_static
          else h.read f.stg.get_dynamic)
  else none

/-- ~function(): stg.desc->destroy(&stg). Returns the resulting heap. -/
def Fn.dtor (f : Fn) (h : Heap) : Heap :=
  descDestroy (derefDesc f.stg.desc) f.stg h

/-- The value a container currently holds, as an observation: the pointee of
its own-typed target, or none when the container holds nothing. -/
def Fn.held (f : Fn) (h : Heap) : Option Value :=
  match f.stg.desc with
  | some (DescId.obj ty) =>
    some (if fits_small_storage ty.info then f.stg.get_static
          else h.read f.stg.get_dynamic)
  | _ => none

/-- Table operations dispatched during an assignment, recorded in order. -/
inductive TEvent where
  | copyOp : TEvent
  | moveOp : TEvent
  | destroyOp : TEvent
deriving DecidableEq, Repr

/-- Result of operator=(function const rhs): the new state of this, the
resulting heap, the propagated exception if any, and the table operations
that were dispatched. -/
structure AssignResult where
  self : Fn
  heap : Heap
  thrown : Option CppExn
  events : List TEvent

/-- operator=(function const rhs), translated line by line. sameObject models
the this == addressof rhs test. Otherwise: move this into a default
initialized backup storage, destroy this (through its post-move desc), try to
copy rhs into this; on success destroy the backup; on failure move the backup
back into this, destroy the backup (through its post-move desc) and rethrow. -/
def Fn.assign_copy (sameObject : Bool) (self rhs : Fn) (h : Heap) :
    AssignResult :=
  if sameObject then
    { self := self, heap := h, thrown := none, events := [] }
  else
    let backup0 : Storage := { buf := Buf.uninit, desc := none }
    let p1 := descMove (derefDesc self.stg.desc) backup0 self.stg
    let backup1 := p1.fst
    let stg1 := p1.snd
    let h1 := descDestroy (derefDesc stg1.desc) stg1 h
    match descCopy (derefDesc rhs.stg.desc) stg1 rhs.stg h1 with
    | Except.ok r =>
      let h3 := descDestroy (derefDesc backup1.desc) backup1 r.snd
      { self := { stg := r.fst }, heap := h3, thrown := none,
        events := [TEvent.moveOp, TEvent.destroyOp, TEvent.copyOp,
                   TEvent.destroyOp] }
    | Except.error e =>
      let p2 := descMove (derefDesc backup1.desc) stg1 backup1
      let h2 := descDestroy (derefDesc p2.snd.desc) p2.snd h1
      { self := { stg := p2.fst }, heap := h2, thrown := some e,
        events := [TEvent.moveOp, TEvent.destroyOp, TEvent.copyOp,
                   TEvent.moveOp, TEvent.destroyOp] }

/-- Result of operator=(function rhs) for rvalues: new this, new rhs, heap,
and the dispatched table operations. -/
structure MoveAssignResult where
  self : Fn
  rhs : Fn
  heap : Heap
  events : List TEvent

/-- operator=(function rhs) for rvalues: after the self test, destroy this
then move rhs into this. Never throws. -/
def Fn.assign_move (sameObject : Bool) (self rhs : Fn) (h : Heap) :
    MoveAssignResult :=
  if sameObject then
    { self := self, rhs := rhs, heap := h, events := [] }
  else
    let h1 := descDestroy (derefDesc self.stg.desc) self.stg h
    let p := descMove (derefDesc rhs.stg.desc) self.stg rhs.stg
    { self := { stg := p.fst }, rhs := { stg := p.snd }, heap := h1,
      events := [TEvent.destroyOp, TEvent.moveOp] }

/-- Container well-formedness relative to a heap: the desc pointer is not
indeterminate, a small-table container has an in-buffer object, an
owned-table container stores the address of a live heap cell. -/
def Fn.Wf (f : Fn) (h : Heap) : Prop :=
  f.stg.desc ≠ none ∧
  ∀ ty, f.stg.desc = some (DescId.obj ty) →
    if fits_small_storage ty.info then
      ∃ v, f.stg.buf = Buf.inl v
    else
      ∃ a, f.stg.buf = Buf.addr a ∧ (h.lookup a).isSome = true

/-- A small concrete callable value: one byte, nothrow move, n + 1. -/
def vSmall : Value :=
  { ty := { tyId := 1, info := { size := 1, align := 1, nothrowMove := true } },
    fn := fun n => n + 1, copyThrows := false }

/-- A large concrete callable value: sixteen bytes, so heap-stored. -/
def vBig : Value :=
  { ty := { tyId := 2, info := { size := 16, align := 8, nothrowMove := true } },
    fn := fun n => n * 2, copyThrows := false }

/-- A small value whose copy constructor throws a marker exception. -/
def vThrow : Value :=
  { ty := { tyId := 3, info := { size := 1, align := 1, nothrowMove := true } },
    fn := fun n => n + 7, copyThrows := true }

/-- C3: invoking an empty container (one whose desc is the shared empty-state
table, in particular a default-constructed, never-assigned one), with any
argument matching the declared signature, fails with the distinct catchable
bad_function_call condition carrying its fixed message "bad function call",
rather than returning a value. -/
theorem C3_empty_invoke_bad_function_call (f : Fn) (h : Heap) (arg : Nat)
    (hemp : f.stg.desc = some DescId.empty) :
    Fn.call f h arg = Except.error CppExn.bad_function_call ∧
    exnWhat CppExn.bad_function_call = "bad function call" := by
  constructor
  · simp [Fn.call, hemp, derefDesc, descInvoke]
  · rfl

/-- Witness for C3 at a default-constructed container and argument 5. -/
theorem C3_empty_invoke_bad_function_call_witness :
    Fn.mk_default.stg.desc = some DescId.empty ∧
    (Fn.call Fn.mk_default Heap.emptyHeap 5 = Except.error CppExn.bad_function_call ∧
     exnWhat CppExn.bad_function_call = "bad function call") :=
  ⟨rfl, C3_empty_invoke_bad_function_call Fn.mk_default Heap.emptyHeap 5 rfl⟩

/-- C4: a concrete type T is stored inline exactly when its size is at most
the inline buffer size (one machine address), its alignment at most the
buffer alignment, and its move construction is nothrow; otherwise
construction stores the address of a single freshly heap-allocated copy. -/
theorem C4_small_storage_selection (v : Value) (h : Heap) :
    (fits_small_storage v.ty.info = true ↔
      (v.ty.info.size ≤ INPLACE_BUFFER_SIZE ∧
       v.ty.info.align ≤ INPLACE_BUFFER_ALIGNMENT ∧
       v.ty.info.nothrowMove = true)) ∧
    (if fits_small_storage v.ty.info then
       (Fn.mk_val v h).fst.stg.buf = Buf.inl v ∧ (Fn.mk_val v h).snd = h
     else
       (Fn.mk_val v h).fst.stg.buf = Buf.addr h.next ∧
       (Fn.mk_val v h).snd.cells = (h.next, v) :: h.cells ∧
       (Fn.mk_val v h).snd.read h.next = v) := by
  constructor
  · simp [fits_small_storage, Bool.and_eq_true, decide_eq_true_iff, and_assoc]
  · by_cases hf : fits_small_storage v.ty.info
    · simp [hf, Fn.mk_val]
    · simp [hf, Fn.mk_val, Heap.alloc, Heap.read, Heap.lookup, List.find?]

/-- C2 counterexample: the claim requires move construction to leave every
non-empty source empty, inline storage included; but for the small, inline
stored value vSmall the source keeps the small table after the move, so its
emptiness test stays false (operator bool stays true). -/
theorem C2_claim_counterexample :
    ((Fn.mk_move (Fn.mk_val vSmall Heap.emptyHeap).fst).snd).toBool = true := by
  rfl

/-- C2 amended: move construction (and move assignment) transfers the held
value to the destination, and the emptiness test of the source becomes true
exactly when the value was heap-stored; an inline-stored source keeps its
table (its emptiness test stays false, a moved-from object remaining in its
buffer). -/
theorem C2_move_transfers_value_amended (v : Value) (h : Heap) (arg : Nat) :
    Fn.target (Fn.mk_move (Fn.mk_val v h).fst).fst v.ty (Fn.mk_val v h).snd
      = some v ∧
    Fn.call (Fn.mk_move (Fn.mk_val v h).fst).fst (Fn.mk_val v h).snd arg
      = Except.ok (v.fn arg) ∧
    ((Fn.mk_move (Fn.mk_val v h).fst).snd).toBool
      = fits_small_storage v.ty.info ∧
    ((Fn.assign_move false Fn.mk_default (Fn.mk_val v h).fst
        (Fn.mk_val v h).snd).rhs).toBool = fits_small_storage v.ty.info ∧
    Fn.target
      (Fn.assign_move false Fn.mk_default (Fn.mk_val v h).fst
        (Fn.mk_val v h).snd).self v.ty
      (Fn.assign_move false Fn.mk_default (Fn.mk_val v h).fst
        (Fn.mk_val v h).snd).heap = some v := by
  by_cases hf : fits_small_storage v.ty.info
  · simp [hf, Fn.mk_val, Fn.mk_move, Fn.assign_move, Fn.mk_default, descMove,
      descDestroy, descInvoke, derefDesc, Fn.target, Fn.call, Fn.toBool,
      Storage.get_static]
  · simp [hf, Fn.mk_val, Fn.mk_move, Fn.assign_move, Fn.mk_default, descMove,
      descDestroy, descInvoke, derefDesc, Fn.target, Fn.call, Fn.toBool,
      Storage.get_dynamic, Heap.alloc, Heap.read, Heap.lookup, List.find?]

/-- C5: for a container holding a heap-stored (owned-strategy) value, move
transfers the stored address to the destination unchanged, resets the source
desc to the empty-state table, makes the source emptiness test true
(operator bool false), and a subsequent destroy of the source leaves the
heap untouched (no double free). -/
theorem C5_owned_move_transfers_and_empties_source (c : Fn) (ty : CppType)
    (h : Heap) (hdesc : c.stg.desc = some (DescId.obj ty))
    (hbig : fits_small_storage ty.info = false) :
    (Fn.mk_move c).fst.stg.buf = Buf.addr c.stg.get_dynamic ∧
    (Fn.mk_move c).fst.stg.desc = c.stg.desc ∧
    (Fn.mk_move c).snd.stg.desc = some DescId.empty ∧
    ((Fn.mk_move c).snd).toBool = false ∧
    Fn.dtor (Fn.mk_move c).snd h = h := by
  simp [Fn.mk_move, descMove, derefDesc, hdesc, hbig, Fn.toBool, Fn.dtor,
    descDestroy]

/-- Witness for C5 at a container constructed from the large value vBig. -/
theorem C5_owned_move_transfers_and_empties_source_witness :
    (Fn.mk_val vBig Heap.emptyHeap).fst.stg.desc
      = some (DescId.obj vBig.ty) ∧
    fits_small_storage vBig.ty.info = false ∧
    ((Fn.mk_move (Fn.mk_val vBig Heap.emptyHeap).fst).fst.stg.buf
        = Buf.addr (Fn.mk_val vBig Heap.emptyHeap).fst.stg.get_dynamic ∧
     (Fn.mk_move (Fn.mk_val vBig Heap.emptyHeap).fst).fst.stg.desc
        = (Fn.mk_val vBig Heap.emptyHeap).fst.stg.desc ∧
     (Fn.mk_move (Fn.mk_val vBig Heap.emptyHeap).fst).snd.stg.desc
        = some DescId.empty ∧
     ((Fn.mk_move (Fn.mk_val vBig Heap.emptyHeap).fst).snd).toBool = false ∧
     Fn.dtor (Fn.mk_move (Fn.mk_val vBig Heap.emptyHeap).fst).snd
        (Fn.mk_val vBig Heap.emptyHeap).snd
        = (Fn.mk_val vBig Heap.emptyHeap).snd) :=
  ⟨rfl, rfl,
   C5_owned_move_transfers_and_empties_source
     (Fn.mk_val vBig Heap.emptyHeap).fst vBig.ty
     (Fn.mk_val vBig Heap.emptyHeap).snd rfl rfl⟩

/-- C6: constructing a container from a value v of concrete type v.ty and
querying target at v.ty yields the held value (equal to v); querying any
other type, or any type on a default-constructed container, yields the
absent sentinel; and in general target is non-absent exactly when the
current table pointer equals the table of the queried type. -/
theorem C6_target_round_trip (v : Value) (h : Heap) (u : CppType)
    (hne : u ≠ v.ty) :
    Fn.target (Fn.mk_val v h).fst v.ty (Fn.mk_val v h).snd = some v ∧
    Fn.target (Fn.mk_val v h).fst u (Fn.mk_val v h).snd = none ∧
    (∀ w, Fn.target Fn.mk_default w h = none) ∧
    (∀ (f : Fn) (w : CppType) (hh : Heap),
      (Fn.target f w hh).isSome = true ↔ f.stg.desc = some (DescId.obj w)) := by
  refine ⟨?_, ?_, ?_, ?_⟩
  · by_cases hf : fits_small_storage v.ty.info <;>
      simp [hf, Fn.mk_val, Fn.target, Storage.get_static, Storage.get_dynamic,
        Heap.alloc, Heap.read, Heap.lookup, List.find?]
  · by_cases hf : fits_small_storage v.ty.info <;>
      simp [hf, Fn.mk_val, Fn.target, Ne.symm hne]
  · intro w
    simp [Fn.mk_default, Fn.target]
  · intro f w hh
    by_cases hd : f.stg.desc = some (DescId.obj w) <;> simp [Fn.target, hd]

/-- Witness for C6 at the small value vSmall and the unrelated type of vBig. -/
theorem C6_target_round_trip_witness :
    vBig.ty ≠ vSmall.ty ∧
    (Fn.target (Fn.mk_val vSmall Heap.emptyHeap).fst vSmall.ty
        (Fn.mk_val vSmall Heap.emptyHeap).snd = some vSmall ∧
     Fn.target (Fn.mk_val vSmall Heap.emptyHeap).fst vBig.ty
        (Fn.mk_val vSmall Heap.emptyHeap).snd = none ∧
     (∀ w, Fn.target Fn.mk_default w Heap.emptyHeap = none) ∧
     (∀ (f : Fn) (w : CppType) (hh : Heap),
       (Fn.target f w hh).isSome = true ↔
         f.stg.desc = some (DescId.obj w))) :=
  ⟨by decide, C6_target_round_trip vSmall Heap.emptyHeap vBig.ty (by decide)⟩

/-- C7: copy-then-invoke equivalence: if copy construction of d from c
succeeds, then invoking d (in the post-copy heap) with any argument gives
the same result as invoking c (in the pre-copy heap). -/
theorem C7_copy_then_invoke (c d : Fn) (h hp : Heap) (arg : Nat)
    (hok : Fn.mk_copy c h = Except.ok (d, hp)) :
    Fn.call d hp arg = Fn.call c h arg := by
  unfold Fn.mk_copy at hok
  rcases hcd : c.stg.desc with _ | d0
  · simp [derefDesc, hcd, descCopy] at hok
    rcases hok with ⟨rfl, rfl⟩
    simp [Fn.call, derefDesc, hcd, descInvoke]
  · rcases d0 with _ | ty
    · simp [derefDesc, hcd, descCopy] at hok
      rcases hok with ⟨rfl, rfl⟩
      simp [Fn.call, derefDesc, hcd, descInvoke]
    · by_cases hf : fits_small_storage ty.info
      · by_cases hc : c.stg.get_static.copyThrows <;>
          simp [derefDesc, hcd, descCopy, hf, hc] at hok
        rcases hok with ⟨rfl, rfl⟩
        simp [Fn.call, derefDesc, hcd, descInvoke, hf, Storage.get_static]
      · by_cases hc : (h.read c.stg.get_dynamic).copyThrows <;>
          simp [derefDesc, hcd, descCopy, hf, hc] at hok
        rcases hok with ⟨rfl, rfl⟩
        simp [Fn.call, derefDesc, hcd, descInvoke, hf, Storage.get_dynamic,
          Heap.alloc, Heap.read, Heap.lookup, List.find?]

/-- Witness for C7 at a container holding the large value vBig. -/
theorem C7_copy_then_invoke_witness :
    Fn.mk_copy (Fn.mk_val vBig Heap.emptyHeap).fst
        (Fn.mk_val vBig Heap.emptyHeap).snd
      = Except.ok
          ({ stg := { buf := Buf.addr 1, desc := some (DescId.obj vBig.ty) } },
           { next := 2, cells := [(1, vBig), (0, vBig)] }) ∧
    Fn.call { stg := { buf := Buf.addr 1, desc := some (DescId.obj vBig.ty) } }
        { next := 2, cells := [(1, vBig), (0, vBig)] } 21
      = Fn.call (Fn.mk_val vBig Heap.emptyHeap).fst
          (Fn.mk_val vBig Heap.emptyHeap).snd 21 :=
  ⟨rfl,
   C7_copy_then_invoke (Fn.mk_val vBig Heap.emptyHeap).fst
     { stg := { buf := Buf.addr 1, desc := some (DescId.obj vBig.ty) } }
     (Fn.mk_val vBig Heap.emptyHeap).snd
     { next := 2, cells := [(1, vBig), (0, vBig)] } 21 rfl⟩

/-- C8: self-assignment is a no-op: with this and rhs the same object, both
copy-assignment and move-assignment return immediately, leaving the
container and the heap unchanged and dispatching no table operation (no
copy, no move, no destroy of the held value). -/
theorem C8_self_assignment_noop (c : Fn) (h : Heap) :
    (Fn.assign_copy true c c h).self = c ∧
    (Fn.assign_copy true c c h).heap = h ∧
    (Fn.assign_copy true c c h).thrown = none ∧
    (Fn.assign_copy true c c h).events = [] ∧
    (Fn.assign_move true c c h).self = c ∧
    (Fn.assign_move true c c h).rhs = c ∧
    (Fn.assign_move true c c h).heap = h ∧
    (Fn.assign_move true c c h).events = [] := by
  simp [Fn.assign_copy, Fn.assign_move]

/-- A successful descCopy gives the destination a non-absent desc whenever
the source desc is non-absent. -/
theorem descCopy_dst_desc_ne (d : DescId) (dst src : Storage) (h : Heap)
    (r : Storage × Heap) (hs : src.desc ≠ none)
    (hok : descCopy d dst src h = Except.ok r) : r.fst.desc ≠ none := by
  rcases d with _ | ty
  · simp only [descCopy, Except.ok.injEq] at hok
    subst hok
    simp
  · by_cases hf : fits_small_storage ty.info
    · by_cases hc : src.get_static.copyThrows <;>
        simp [descCopy, hf, hc] at hok
      subst hok
      exact hs
    · by_cases hc : (h.read src.get_dynamic).copyThrows <;>
        simp [descCopy, hf, hc] at hok
      subst hok
      exact hs

/-- descMove gives the destination a non-absent desc whenever the source
desc is non-absent. -/
theorem descMove_dst_desc_ne (d : DescId) (dst src : Storage)
    (hs : src.desc ≠ none) : (descMove d dst src).fst.desc ≠ none := by
  rcases d with _ | ty
  · simp [descMove]
  · by_cases hf : fits_small_storage ty.info <;> simp [descMove, hf] <;>
      exact hs

/-- descMove leaves the source desc non-absent whenever it started
non-absent (the owned table resets it to the empty table, the others leave
it alone). -/
theorem descMove_src_desc_ne (d : DescId) (dst src : Storage)
    (hs : src.desc ≠ none) : (descMove d dst src).snd.desc ≠ none := by
  rcases d with _ | ty
  · simp [descMove]
    exact hs
  · by_cases hf : fits_small_storage ty.info <;> simp [descMove, hf]
    exact hs

/-- Containers producible through the public surface of the source:
default construction, construction from a callable value, copy
construction, move construction (either resulting object), and both
assignments (either resulting object, self and non-self alike). -/
inductive Constructed : Fn → Prop where
  | default_ctor : Constructed Fn.mk_default
  | val_ctor (v : Value) (h : Heap) : Constructed (Fn.mk_val v h).fst
  | copy_ctor (o : Fn) (h : Heap) (g : Fn) (hp : Heap) :
      Constructed o → Fn.mk_copy o h = Except.ok (g, hp) → Constructed g
  | move_ctor_dst (o : Fn) : Constructed o → Constructed (Fn.mk_move o).fst
  | move_ctor_src (o : Fn) : Constructed o → Constructed (Fn.mk_move o).snd
  | copy_assign_self (s r : Fn) (h : Heap) :
      Constructed s → Constructed (Fn.assign_copy true s r h).self
  | copy_assign (s r : Fn) (h : Heap) :
      Constructed s → Constructed r →
      Constructed (Fn.assign_copy false s r h).self
  | move_assign_self (s r : Fn) (h : Heap) :
      Constructed s → Constructed (Fn.assign_move true s r h).self
  | move_assign_dst (s r : Fn) (h : Heap) :
      Constructed s → Constructed r →
      Constructed (Fn.assign_move false s r h).self
  | move_assign_src (s r : Fn) (h : Heap) :
      Constructed s → Constructed r →
      Constructed (Fn.assign_move false s r h).rhs

/-- C9: the table pointer is never null: every container reachable through
default construction, construction from a callable, copy, move and both
assignments has a non-absent desc (it is the empty-state table when the
container is empty), so destroy and move dispatch unconditionally. -/
theorem C9_desc_never_null (f : Fn) (hc : Constructed f) :
    f.stg.desc ≠ none := by
  induction hc with
  | default_ctor => simp [Fn.mk_default]
  | val_ctor v h =>
      by_cases hf : fits_small_storage v.ty.info <;> simp [Fn.mk_val, hf]
  | copy_ctor o h g hp ho hok ih =>
      unfold Fn.mk_copy at hok
      rcases hcc : descCopy (derefDesc o.stg.desc)
          { buf := Buf.uninit, desc := none } o.stg h with e | rr <;>
        rw [hcc] at hok
      · simp at hok
      · simp only [Except.ok.injEq, Prod.mk.injEq] at hok
        rcases hok with ⟨rfl, rfl⟩
        exact descCopy_dst_desc_ne _ _ _ _ _ ih hcc
  | move_ctor_dst o ho ih =>
      show (descMove (derefDesc o.stg.desc)
          { buf := Buf.uninit, desc := none } o.stg).fst.desc ≠ none
      exact descMove_dst_desc_ne _ _ _ ih
  | move_ctor_src o ho ih =>
      show (descMove (derefDesc o.stg.desc)
          { buf := Buf.uninit, desc := none } o.stg).snd.desc ≠ none
      exact descMove_src_desc_ne _ _ _ ih
  | copy_assign_self s r h hs ih =>
      exact ih
  | copy_assign s r h hs hr ihs ihr =>
      unfold Fn.assign_copy
      rw [if_neg (by simp)]
      dsimp only
      split
      · next rr hcc =>
          exact descCopy_dst_desc_ne _ _ _ _ _ ihr hcc
      · next e hcc =>
          exact descMove_dst_desc_ne _ _ _
            (descMove_dst_desc_ne (derefDesc s.stg.desc)
              { buf := Buf.uninit, desc := none } s.stg ihs)
  | move_assign_self s r h hs ih =>
      exact ih
  | move_assign_dst s r h hs hr ihs ihr =>
      show (descMove (derefDesc r.stg.desc) s.stg r.stg).fst.desc ≠ none
      exact descMove_dst_desc_ne _ _ _ ihr
  | move_assign_src s r h hs hr ihs ihr =>
      show (descMove (derefDesc r.stg.desc) s.stg r.stg).snd.desc ≠ none
      exact descMove_src_desc_ne _ _ _ ihr

/-- Witness for C9 at a default-constructed container. -/
theorem C9_desc_never_null_witness : Fn.mk_default.stg.desc ≠ none :=
  C9_desc_never_null Fn.mk_default Constructed.default_ctor

/-- C10: a successful copy construction gives the destination the same
table pointer as the source in every case (empty, inline stored, heap
stored), so its emptiness test and its typed probe at every type agree with
the source; in particular copying an empty container yields an empty one. -/
theorem C10_copy_preserves_desc (o : Fn) (h : Heap) (g : Fn) (hp : Heap)
    (hvalid : o.stg.desc ≠ none)
    (hok : Fn.mk_copy o h = Except.ok (g, hp)) :
    g.stg.desc = o.stg.desc ∧ g.toBool = o.toBool ∧
    (∀ ty, Fn.target g ty hp = Fn.target o ty h) := by
  unfold Fn.mk_copy at hok
  rcases hcd : o.stg.desc with _ | d0
  · exact absurd hcd hvalid
  · rcases d0 with _ | ty0
    · simp [derefDesc, hcd, descCopy] at hok
      rcases hok with ⟨rfl, rfl⟩
      refine ⟨by simp [hcd], by simp [Fn.toBool, hcd], ?_⟩
      intro ty
      simp [Fn.target, hcd]
    · by_cases hf : fits_small_storage ty0.info
      · by_cases hc : o.stg.get_static.copyThrows <;>
          simp [derefDesc, hcd, descCopy, hf, hc] at hok
        rcases hok with ⟨rfl, rfl⟩
        refine ⟨by simp [hcd], by simp [Fn.toBool, hcd], ?_⟩
        intro ty
        by_cases hty : ty = ty0
        · subst hty
          simp [Fn.target, hcd, hf, Storage.get_static]
        · simp [Fn.target, hcd, hty, Ne.symm hty]
      · by_cases hc : (h.read o.stg.get_dynamic).copyThrows <;>
          simp [derefDesc, hcd, descCopy, hf, hc] at hok
        rcases hok with ⟨rfl, rfl⟩
        refine ⟨by simp [hcd], by simp [Fn.toBool, hcd], ?_⟩
        intro ty
        by_cases hty : ty = ty0
        · subst hty
          simp [Fn.target, hcd, hf, Storage.get_dynamic, Heap.alloc,
            Heap.read, Heap.lookup, List.find?]
        · simp [Fn.target, hcd, hty, Ne.symm hty]

/-- Witness for C10 at a copy of a container holding the small value. -/
theorem C10_copy_preserves_desc_witness :
    (Fn.mk_val vSmall Heap.emptyHeap).fst.stg.desc ≠ none ∧
    Fn.mk_copy (Fn.mk_val vSmall Heap.emptyHeap).fst Heap.emptyHeap
      = Except.ok
          ({ stg := { buf := Buf.inl vSmall,
                      desc := some (DescId.obj vSmall.ty) } },
           Heap.emptyHeap) ∧
    ({ stg := { buf := Buf.inl vSmall,
                desc := some (DescId.obj vSmall.ty) } } : Fn).stg.desc
        = (Fn.mk_val vSmall Heap.emptyHeap).fst.stg.desc ∧
    ({ stg := { buf := Buf.inl vSmall,
                desc := some (DescId.obj vSmall.ty) } } : Fn).toBool
        = (Fn.mk_val vSmall Heap.emptyHeap).fst.toBool ∧
    (∀ ty, Fn.target
        { stg := { buf := Buf.inl vSmall,
                   desc := some (DescId.obj vSmall.ty) } } ty Heap.emptyHeap
      = Fn.target (Fn.mk_val vSmall Heap.emptyHeap).fst ty Heap.emptyHeap) :=
  ⟨by simp [Fn.mk_val, vSmall, fits_small_storage, INPLACE_BUFFER_SIZE,
      INPLACE_BUFFER_ALIGNMENT],
   rfl,
   C10_copy_preserves_desc (Fn.mk_val vSmall Heap.emptyHeap).fst
     Heap.emptyHeap
     { stg := { buf := Buf.inl vSmall,
                desc := some (DescId.obj vSmall.ty) } }
     Heap.emptyHeap
     (by simp [Fn.mk_val, vSmall, fits_small_storage, INPLACE_BUFFER_SIZE,
       INPLACE_BUFFER_ALIGNMENT]) rfl⟩

/-- A live address lies below the bump pointer of a well-formed heap. -/
theorem Heap.lookup_lt_next (h : Heap) (hh : h.Wf) (a : Nat)
    (hl : (h.lookup a).isSome = true) : a < h.next := by
  unfold Heap.lookup at hl
  cases hf : h.cells.find? (fun c => c.fst == a) with
  | none => rw [hf] at hl; simp at hl
  | some cell =>
      have hmem : cell ∈ h.cells := List.mem_of_find?_eq_some hf
      have hbeq := List.find?_some hf
      have heq : cell.fst = a := by simpa using hbeq
      exact heq ▸ hh cell hmem

/-- The address handed out by an allocation is the bump pointer. -/
theorem Heap.alloc_fst (h : Heap) (v : Value) : (h.alloc v).fst = h.next :=
  rfl

/-- Reading the freshly allocated address returns the allocated value. -/
theorem Heap.read_alloc (h : Heap) (v : Value) :
    Heap.read (h.alloc v).snd h.next = v := by
  simp [Heap.alloc, Heap.read, Heap.lookup, List.find?]

/-- Reading the freshly allocated address still returns the allocated value
after some other address is freed. -/
theorem Heap.read_free_alloc (h : Heap) (v : Value) (a : Nat)
    (ha : a ≠ h.next) :
    Heap.read (Heap.free (h.alloc v).snd a) h.next = v := by
  have hb : (h.next != a) = true := by
    simp [bne_iff_ne]
    exact Ne.symm ha
  simp [Heap.alloc, Heap.read, Heap.free, Heap.lookup, List.filter, hb,
    List.find?]

/-- C1: copy-assignment provides the strong exception-safety guarantee: if
copying the held value of the right-hand side throws, this container ends
up exactly as it was before the call (same storage, heap unchanged) and the
failure propagates to the caller; on success this container carries the
table of the right-hand side and holds an equal value, independently (a
heap-stored value is copied to a distinct fresh address). -/
theorem C1_copy_assign_strong_guarantee (c r : Fn) (h : Heap)
    (hh : h.Wf) (hc : c.Wf h) (hr : r.Wf h) :
    (∀ e, (Fn.assign_copy false c r h).thrown = some e →
        (Fn.assign_copy false c r h).self = c ∧
        (Fn.assign_copy false c r h).heap = h ∧
        e = CppExn.copy_failure) ∧
    ((Fn.assign_copy false c r h).thrown = none →
        (Fn.assign_copy false c r h).self.stg.desc = r.stg.desc ∧
        Fn.held (Fn.assign_copy false c r h).self
            (Fn.assign_copy false c r h).heap = Fn.held r h ∧
        (∀ ty, derefDesc r.stg.desc = DescId.obj ty →
            fits_small_storage ty.info = false →
            (Fn.assign_copy false c r h).self.stg.get_dynamic
              ≠ r.stg.get_dynamic)) := by
  obtain ⟨⟨cbuf, cdesc⟩⟩ := c
  obtain ⟨⟨rbuf, rdesc⟩⟩ := r
  obtain ⟨hc0, hc1⟩ := hc
  obtain ⟨hr0, hr1⟩ := hr
  rcases cdesc with _ | (_ | tc)
  · exact absurd rfl hc0
  · rcases rdesc with _ | (_ | tr)
    · exact absurd rfl hr0
    · simp [Fn.assign_copy, descMove, descCopy, descDestroy, derefDesc,
        Fn.held]
    · have hrs := hr1 tr rfl
      by_cases hfr : fits_small_storage tr.info
      · rw [if_pos hfr] at hrs
        obtain ⟨w, hb⟩ := hrs
        subst hb
        by_cases ht : w.copyThrows
        · simp [Fn.assign_copy, descMove, descCopy, descDestroy, derefDesc,
            Fn.held, Storage.get_static, Storage.get_dynamic, hfr, ht]
        · simp [Fn.assign_copy, descMove, descCopy, descDestroy, derefDesc,
            Fn.held, Storage.get_static, Storage.get_dynamic, hfr, ht]
      · rw [if_neg hfr] at hrs
        obtain ⟨b, hb, hlive2⟩ := hrs
        subst hb
        have hblt : b < h.next := Heap.lookup_lt_next h hh b hlive2
        by_cases ht : (Heap.read h b).copyThrows
        · simp [Fn.assign_copy, descMove, descCopy, descDestroy, derefDesc,
            Fn.held, Storage.get_static, Storage.get_dynamic, hfr, ht]
        · simp [Fn.assign_copy, descMove, descCopy, descDestroy, derefDesc,
            Fn.held, Storage.get_static, Storage.get_dynamic, hfr, ht,
            Heap.alloc_fst, Heap.read_alloc, Nat.ne_of_gt hblt]
  · have hcs := hc1 tc rfl
    by_cases hfc : fits_small_storage tc.info
    · rw [if_pos hfc] at hcs
      obtain ⟨v, hcb⟩ := hcs
      subst hcb
      rcases rdesc with _ | (_ | tr)
      · exact absurd rfl hr0
      · simp [Fn.assign_copy, descMove, descCopy, descDestroy, derefDesc,
          Fn.held, Storage.get_static, Storage.get_dynamic, hfc]
      · have hrs := hr1 tr rfl
        by_cases hfr : fits_small_storage tr.info
        · rw [if_pos hfr] at hrs
          obtain ⟨w, hb⟩ := hrs
          subst hb
          by_cases ht : w.copyThrows
          · simp [Fn.assign_copy, descMove, descCopy, descDestroy,
              derefDesc, Fn.held, Storage.get_static, Storage.get_dynamic,
              hfc, hfr, ht]
          · simp [Fn.assign_copy, descMove, descCopy, descDestroy,
              derefDesc, Fn.held, Storage.get_static, Storage.get_dynamic,
              hfc, hfr, ht]
        · rw [if_neg hfr] at hrs
          obtain ⟨b, hb, hlive2⟩ := hrs
          subst hb
          have hblt : b < h.next := Heap.lookup_lt_next h hh b hlive2
          by_cases ht : (Heap.read h b).copyThrows
          · simp [Fn.assign_copy, descMove, descCopy, descDestroy,
              derefDesc, Fn.held, Storage.get_static, Storage.get_dynamic,
              hfc, hfr, ht]
          · simp [Fn.assign_copy, descMove, descCopy, descDestroy,
              derefDesc, Fn.held, Storage.get_static, Storage.get_dynamic,
              hfc, hfr, ht, Heap.alloc_fst, Heap.read_alloc,
              Nat.ne_of_gt hblt]
    · rw [if_neg hfc] at hcs
      obtain ⟨a, hcb, hlive⟩ := hcs
      subst hcb
      have halt : a < h.next := Heap.lookup_lt_next h hh a hlive
      rcases rdesc with _ | (_ | tr)
      · exact absurd rfl hr0
      · simp [Fn.assign_copy, descMove, descCopy, descDestroy, derefDesc,
          Fn.held, Storage.get_static, Storage.get_dynamic, hfc]
      · have hrs := hr1 tr rfl
        by_cases hfr : fits_small_storage tr.info
        · rw [if_pos hfr] at hrs
          obtain ⟨w, hb⟩ := hrs
          subst hb
          by_cases ht : w.copyThrows
          · simp [Fn.assign_copy, descMove, descCopy, descDestroy,
              derefDesc, Fn.held, Storage.get_static, Storage.get_dynamic,
              hfc, hfr, ht]
          · simp [Fn.assign_copy, descMove, descCopy, descDestroy,
              derefDesc, Fn.held, Storage.get_static, Storage.get_dynamic,
              hfc, hfr, ht]
        · rw [if_neg hfr] at hrs
          obtain ⟨b, hb, hlive2⟩ := hrs
          subst hb
          have hblt : b < h.next := Heap.lookup_lt_next h hh b hlive2
          by_cases ht : (Heap.read h b).copyThrows
          · simp [Fn.assign_copy, descMove, descCopy, descDestroy,
              derefDesc, Fn.held, Storage.get_static, Storage.get_dynamic,
              hfc, hfr, ht]
          · simp [Fn.assign_copy, descMove, descCopy, descDestroy,
              derefDesc, Fn.held, Storage.get_static, Storage.get_dynamic,
              hfc, hfr, ht, Heap.alloc_fst, Heap.read_alloc,
              Nat.ne_of_gt hblt,
              Heap.read_free_alloc h (Heap.read h b) a (Nat.ne_of_lt halt)]

/-- Witness for C1: assigning a container holding the throwing-copy value
vThrow into a container holding vSmall fails, and the target is exactly as
before with the empty heap unchanged. -/
theorem C1_copy_assign_strong_guarantee_witness :
    Heap.Wf Heap.emptyHeap ∧
    Fn.Wf { stg := { buf := Buf.inl vSmall,
                     desc := some (DescId.obj vSmall.ty) } } Heap.emptyHeap ∧
    Fn.Wf { stg := { buf := Buf.inl vThrow,
                     desc := some (DescId.obj vThrow.ty) } } Heap.emptyHeap ∧
    ((Fn.assign_copy false
        { stg := { buf := Buf.inl vSmall,
                   desc := some (DescId.obj vSmall.ty) } }
        { stg := { buf := Buf.inl vThrow,
                   desc := some (DescId.obj vThrow.ty) } }
        Heap.emptyHeap).self
      = { stg := { buf := Buf.inl vSmall,
                   desc := some (DescId.obj vSmall.ty) } } ∧
     (Fn.assign_copy false
        { stg := { buf := Buf.inl vSmall,
                   desc := some (DescId.obj vSmall.ty) } }
        { stg := { buf := Buf.inl vThrow,
                   desc := some (DescId.obj vThrow.ty) } }
        Heap.emptyHeap).heap = Heap.emptyHeap ∧
     CppExn.copy_failure = CppExn.copy_failure) := by
  have hh : Heap.Wf Heap.emptyHeap := by
    intro x hx
    simp [Heap.emptyHeap] at hx
  have hcw : Fn.Wf
      { stg := { buf := Buf.inl vSmall,
                 desc := some (DescId.obj vSmall.ty) } } Heap.emptyHeap := by
    refine ⟨by simp, ?_⟩
    intro ty hty
    simp only [Option.some.injEq, DescId.obj.injEq] at hty
    subst hty
    rw [if_pos (by decide)]
    exact ⟨vSmall, rfl⟩
  have hrw : Fn.Wf
      { stg := { buf := Buf.inl vThrow,
                 desc := some (DescId.obj vThrow.ty) } } Heap.emptyHeap := by
    refine ⟨by simp, ?_⟩
    intro ty hty
    simp only [Option.some.injEq, DescId.obj.injEq] at hty
    subst hty
    rw [if_pos (by decide)]
    exact ⟨vThrow, rfl⟩
  exact ⟨hh, hcw, hrw,
    (C1_copy_assign_strong_guarantee _ _ _ hh hcw hrw).1
      CppExn.copy_failure rfl⟩

end FnModel
